import Mathlib

/-!
Verification of fibsterm (src/main.rs): a terminal client for the FIBS
backgammon server.  The definitions below are a shallow embedding of the
program's data model and operations: the prompt-scanner transition table
`delta`, the coordinator's session state machine, the network-reader loop,
the input-relay loop and the TUI renderer's buffer updates.  Text is
modelled as `List Char`, raw network bytes as `Nat` (byte values 0..255).
-/

namespace Fibsterm

/-- Display-update events sent to the TUI thread (enum `Update` in main.rs).
`MOTD` carries the raw banner bytes (main.rs decodes them with
`String::from_utf8_lossy` at the send site; we keep the bytes and decode in
the TUI model). -/
inductive Update where
  | MOTD (bytes : List Nat)
  | AppendChars (s : List Char)
  | AppendLine (s : List Char)
  | Input (s : List Char)
deriving DecidableEq

/-- Session phases (enum `FibsState` in main.rs). -/
inductive FibsState where
  | MOTD
  | WaitLogin
  | WaitPassword
deriving DecidableEq

/-- The scanner transition table, exactly the `delta.insert` calls of
main.rs lines 317-340: state ↦ (per-state default, byte ↦ next state).
Byte literals: 13 = CR, 10 = LF, then the bytes of "login: " and
"password: ". -/
def delta : List (Nat × Nat × List (Nat × Nat)) :=
  [ (0, 0, [(13, 1)]),
    (1, 0, [(10, 2)]),
    (2, 2, [(10, 3)]),
    (3, 2, [(108, 4)]),   -- 'l'
    (4, 2, [(111, 5)]),   -- 'o'
    (5, 2, [(103, 6)]),   -- 'g'
    (6, 2, [(105, 7)]),   -- 'i'
    (7, 2, [(110, 8)]),   -- 'n'
    (8, 2, [(58, 9)]),    -- ':'
    (9, 2, [(32, 10)]),   -- ' '
    (10, 2, [(112, 11)]), -- 'p'
    (11, 2, [(97, 12)]),  -- 'a'
    (12, 2, [(115, 13)]), -- 's'
    (13, 2, [(115, 14)]), -- 's'
    (14, 2, [(119, 15)]), -- 'w'
    (15, 2, [(111, 16)]), -- 'o'
    (16, 2, [(114, 17)]), -- 'r'
    (17, 2, [(100, 18)]), -- 'd'
    (18, 2, [(58, 19)]),  -- ':'
    (19, 2, [(32, 20)]) ] -- ' '

/-- One scanner step, mirroring main.rs lines 359-363:
`delta.get(&s).and_then(|(default, d)| d.get(&b).or_else(|| Some(default)))
 .map(|byte| *byte).unwrap_or(0)`. -/
def scanStep (s b : Nat) : Nat :=
  ((delta.lookup s).bind fun p => (p.2.lookup b).orElse fun _ => some p.1).getD 0

/-- The mutable state of the coordinator loop in `main`: the session phase
(`state.fibs_state`), the scanner state (`s`), the banner buffer (`buf`)
and, for observation, the display updates sent so far (in send order). -/
structure SessionSt where
  fibs_state : FibsState
  s : Nat
  buf : List Nat
  updates : List Update
deriving DecidableEq

/-- The line the coordinator appends on a password-prompt match
(main.rs line 385). -/
def pwLine : List Char := "password: ".toList

/-- One iteration of the coordinator loop's `Ok(b)` arm
(main.rs lines 351-393).  In `FibsState::MOTD` the byte is pushed onto
`buf` when the *old* scanner state exceeds 1, the scanner steps, and on
reaching state 10 the banner update is emitted, `buf` cleared and the
phase moves to `WaitLogin`.  In `WaitLogin` the scanner steps and on
reaching state 20 a "password: " line is emitted, `buf` cleared and the
phase moves to `WaitPassword`.  In `WaitPassword` the loop breaks, so the
state no longer changes. -/
def sessionStep (st : SessionSt) (b : Nat) : SessionSt :=
  match st.fibs_state with
  | .MOTD =>
    let buf' := if st.s > 1 then st.buf ++ [b] else st.buf
    let s' := scanStep st.s b
    if s' = 10 then
      { fibs_state := .WaitLogin, s := s', buf := [],
        updates := st.updates ++ [.MOTD buf'] }
    else
      { st with s := s', buf := buf' }
  | .WaitLogin =>
    let s' := scanStep st.s b
    if s' = 20 then
      { fibs_state := .WaitPassword, s := s', buf := [],
        updates := st.updates ++ [.AppendLine pwLine] }
    else
      { st with s := s' }
  | .WaitPassword => st

/-- Initial coordinator state (main.rs lines 309-313, 342). -/
def sessionInit : SessionSt :=
  { fibs_state := .MOTD, s := 0, buf := [], updates := [] }

/-- The bytes of an ASCII string, for writing byte streams readably. -/
def strBytes (s : String) : List Nat := s.toList.map Char.toNat

/-- The bytes of the login prompt marker "login: ". -/
def loginMarker : List Nat := [108, 111, 103, 105, 110, 58, 32]

/-- The bytes of the password prompt marker "password: ". -/
def pwMarker : List Nat := [112, 97, 115, 115, 119, 111, 114, 100, 58, 32]

theorem loginMarker_eq : loginMarker = strBytes "login: " := by decide

theorem pwMarker_eq : pwMarker = strBytes "password: " := by decide

example : scanStep 0 13 = 1 := by decide
example : scanStep 1 10 = 2 := by decide
example : scanStep 2 108 = 2 := by decide
example : scanStep 2 10 = 3 := by decide
example : scanStep 3 108 = 4 := by decide
example : scanStep 9 32 = 10 := by decide
example : scanStep 10 112 = 11 := by decide
example : scanStep 19 32 = 20 := by decide
example : scanStep 20 112 = 0 := by decide
example : scanStep 25 99 = 0 := by decide

example :
    List.foldl sessionStep sessionInit (strBytes "\r\nlogin: ") =
      { fibs_state := .MOTD, s := 2, buf := strBytes "login: ", updates := [] } := by
  decide

example :
    List.foldl sessionStep sessionInit (strBytes "\r\nWelcome to Foo.\r\n\r\nlogin: ") =
      { fibs_state := .WaitLogin, s := 10, buf := [],
        updates := [.MOTD (strBytes "Welcome to Foo.\r\n\r\nlogin: ")] } := by
  decide

/-- In scanner state 2 (banner-content scanning), every byte other than a
linefeed stays in state 2. -/
theorem scanStep_two {b : Nat} (h : b ≠ 10) : scanStep 2 b = 2 := by
  have hb : (b == 10) = false := by simpa using h
  simp [scanStep, delta, List.lookup, hb]

/-- Once the loop has reached `WaitPassword` it breaks: the state is a
fixpoint of `sessionStep`. -/
theorem sessionStep_waitPassword {st : SessionSt} (h : st.fibs_state = .WaitPassword)
    (b : Nat) : sessionStep st b = st := by
  simp [sessionStep, h]

theorem sessionRun_waitPassword {st : SessionSt} (h : st.fibs_state = .WaitPassword)
    (bs : List Nat) : List.foldl sessionStep st bs = st := by
  induction bs with
  | nil => rfl
  | cons b bs ih => rw [List.foldl_cons, sessionStep_waitPassword h, ih]

/-- While in phase `MOTD` with scanner state 2, a run of non-linefeed bytes
is appended to the banner buffer and changes nothing else. -/
theorem motd_skip (m : List Nat) (hm : ∀ b ∈ m, b ≠ 10) (acc : List Nat)
    (us : List Update) (rest : List Nat) :
    List.foldl sessionStep ⟨.MOTD, 2, acc, us⟩ (m ++ rest) =
      List.foldl sessionStep ⟨.MOTD, 2, acc ++ m, us⟩ rest := by
  induction m generalizing acc with
  | nil => simp
  | cons b m ih =>
    have hb : b ≠ 10 := hm b (List.mem_cons_self b m)
    have hstep : sessionStep ⟨.MOTD, 2, acc, us⟩ b = ⟨.MOTD, 2, acc ++ [b], us⟩ := by
      simp [sessionStep, scanStep_two hb]
    rw [List.cons_append, List.foldl_cons, hstep,
      ih (fun c hc => hm c (List.mem_cons_of_mem b hc)) (acc ++ [b])]
    simp

/-- A non-matching MOTD step past the whitespace skip: the byte is pushed
onto the banner buffer and the scanner advances. -/
theorem motd_step (s b : Nat) (hs : 1 < s) (hb : scanStep s b ≠ 10)
    (acc : List Nat) (us : List Update) :
    sessionStep ⟨.MOTD, s, acc, us⟩ b = ⟨.MOTD, scanStep s b, acc ++ [b], us⟩ := by
  simp [sessionStep, hs, hb]

/-- The matching MOTD step: the byte is pushed, the scanner reaches state
10, the banner update is emitted and the phase moves to `WaitLogin`. -/
theorem motd_step_match (s b : Nat) (hs : 1 < s) (hb : scanStep s b = 10)
    (acc : List Nat) (us : List Update) :
    sessionStep ⟨.MOTD, s, acc, us⟩ b =
      ⟨.WaitLogin, 10, [], us ++ [.MOTD (acc ++ [b])]⟩ := by
  simp [sessionStep, hs, hb]

/-- Feeding a linefeed and then the login marker to the machine in phase
`MOTD`, scanner state 2, completes the banner: the bytes (marker included)
are appended to the buffer, the banner update is emitted, the buffer is
cleared and the phase becomes `WaitLogin` with scanner state 10. -/
theorem login_tail (acc : List Nat) (us : List Update) :
    List.foldl sessionStep ⟨.MOTD, 2, acc, us⟩ (10 :: loginMarker) =
      ⟨.WaitLogin, 10, [], us ++ [.MOTD (acc ++ 10 :: loginMarker)]⟩ := by
  rw [show (10 :: loginMarker : List Nat)
        = [10, 108, 111, 103, 105, 110, 58, 32] from rfl]
  rw [List.foldl_cons, motd_step 2 10 (by decide) (by decide) acc us,
    show scanStep 2 10 = 3 from by decide]
  rw [List.foldl_cons, motd_step 3 108 (by decide) (by decide) _ us,
    show scanStep 3 108 = 4 from by decide]
  rw [List.foldl_cons, motd_step 4 111 (by decide) (by decide) _ us,
    show scanStep 4 111 = 5 from by decide]
  rw [List.foldl_cons, motd_step 5 103 (by decide) (by decide) _ us,
    show scanStep 5 103 = 6 from by decide]
  rw [List.foldl_cons, motd_step 6 105 (by decide) (by decide) _ us,
    show scanStep 6 105 = 7 from by decide]
  rw [List.foldl_cons, motd_step 7 110 (by decide) (by decide) _ us,
    show scanStep 7 110 = 8 from by decide]
  rw [List.foldl_cons, motd_step 8 58 (by decide) (by decide) _ us,
    show scanStep 8 58 = 9 from by decide]
  rw [List.foldl_cons, motd_step_match 9 32 (by decide) (by decide) _ us]
  simp [loginMarker]

/-- C1 (amended).  For a stream consisting of the initial CRLF skip, a
banner body `m` free of linefeed bytes, and a linefeed followed by the
literal `"login: "`, the session machine emits exactly one `MOTD` display
update — whose text is the banner body *including* the linefeed and the
prompt-marker bytes `"login: "` — clears the banner buffer, and
transitions to `WaitLogin` exactly once. -/
theorem banner_login_amended (m : List Nat) (hm : ∀ b ∈ m, b ≠ 10) :
    List.foldl sessionStep sessionInit (13 :: 10 :: (m ++ 10 :: loginMarker)) =
      { fibs_state := .WaitLogin, s := 10, buf := [],
        updates := [.MOTD (m ++ 10 :: loginMarker)] } := by
  have e2 : sessionStep (sessionStep sessionInit 13) 10 = ⟨.MOTD, 2, [], []⟩ := by
    decide
  rw [List.foldl_cons, List.foldl_cons, e2, motd_skip m hm [] [] (10 :: loginMarker),
    login_tail]
  simp

/-- C1 witness: the amended statement instantiated on the banner body
`"Welcome to Foo."`. -/
theorem banner_login_amended_witness :
    (∀ b ∈ strBytes "Welcome to Foo.", b ≠ 10) ∧
    List.foldl sessionStep sessionInit
        (13 :: 10 :: (strBytes "Welcome to Foo." ++ 10 :: loginMarker)) =
      { fibs_state := .WaitLogin, s := 10, buf := [],
        updates := [.MOTD (strBytes "Welcome to Foo." ++ 10 :: loginMarker)] } :=
  ⟨by decide, banner_login_amended _ (by decide)⟩

/-- C1 counterexample.  The stream `"\r\nlogin: "` ends, after the initial
CRLF skip, in the literal `"login: "`, yet the machine emits no banner
update and stays in phase `MOTD` (the marker only matches after a linefeed
scanned in the banner-content state).  Moreover, on the stream
`"\r\nWelcome to Foo.\r\n\r\nlogin: "` the single emitted banner update
*contains* the prompt-marker bytes `"login: "`, which the claim says are
excluded. -/
theorem banner_login_counterexample :
    (List.foldl sessionStep sessionInit (strBytes "\r\nlogin: ")).updates = [] ∧
    (List.foldl sessionStep sessionInit (strBytes "\r\nlogin: ")).fibs_state = .MOTD ∧
    (List.foldl sessionStep sessionInit
        (strBytes "\r\nWelcome to Foo.\r\n\r\nlogin: ")).updates
      = [.MOTD (strBytes "Welcome to Foo.\r\n\r\nlogin: ")] := by
  decide

/-- A non-matching `WaitLogin` step: only the scanner state changes. -/
theorem waitLogin_step (s b : Nat) (hb : scanStep s b ≠ 20)
    (buf : List Nat) (us : List Update) :
    sessionStep ⟨.WaitLogin, s, buf, us⟩ b = ⟨.WaitLogin, scanStep s b, buf, us⟩ := by
  simp [sessionStep, hb]

/-- The matching `WaitLogin` step: the scanner reaches state 20, the
"password: " line is emitted, the buffer is cleared and the phase moves to
`WaitPassword`. -/
theorem waitLogin_step_match (s b : Nat) (hb : scanStep s b = 20)
    (buf : List Nat) (us : List Update) :
    sessionStep ⟨.WaitLogin, s, buf, us⟩ b =
      ⟨.WaitPassword, 20, [], us ++ [.AppendLine pwLine]⟩ := by
  simp [sessionStep, hb]

/-- Numeric index of the phases in protocol order. -/
def phaseIdx : FibsState → Nat
  | .MOTD => 0
  | .WaitLogin => 1
  | .WaitPassword => 2

/-- Single-step phase trichotomy: a step either keeps the phase or moves it
one step forward in protocol order. -/
theorem sessionStep_phase_cases (st : SessionSt) (b : Nat) :
    (sessionStep st b).fibs_state = st.fibs_state ∨
    (st.fibs_state = .MOTD ∧ (sessionStep st b).fibs_state = .WaitLogin) ∨
    (st.fibs_state = .WaitLogin ∧ (sessionStep st b).fibs_state = .WaitPassword) := by
  obtain ⟨f, s, buf, us⟩ := st
  cases f with
  | MOTD =>
    by_cases h : scanStep s b = 10
    · exact Or.inr (Or.inl ⟨rfl, by simp [sessionStep, h]⟩)
    · exact Or.inl (by simp [sessionStep, h])
  | WaitLogin =>
    by_cases h : scanStep s b = 20
    · exact Or.inr (Or.inr ⟨rfl, by simp [sessionStep, h]⟩)
    · exact Or.inl (by simp [sessionStep, h])
  | WaitPassword => exact Or.inl rfl

theorem sessionStep_phase_le (st : SessionSt) (b : Nat) :
    phaseIdx st.fibs_state ≤ phaseIdx (sessionStep st b).fibs_state := by
  rcases sessionStep_phase_cases st b with h | ⟨h1, h2⟩ | ⟨h1, h2⟩
  · simp [h]
  · simp [h1, h2, phaseIdx]
  · simp [h1, h2, phaseIdx]

theorem sessionRun_phase_le (st : SessionSt) (bs : List Nat) :
    phaseIdx st.fibs_state ≤ phaseIdx (List.foldl sessionStep st bs).fibs_state := by
  induction bs generalizing st with
  | nil => exact le_refl _
  | cons b bs ih =>
    rw [List.foldl_cons]
    exact le_trans (sessionStep_phase_le st b) (ih (sessionStep st b))

/-- If a run ends in phase `MOTD` it also started there (phases only move
forward). -/
theorem phase_motd_of_run {st : SessionSt} {bs : List Nat}
    (h : (List.foldl sessionStep st bs).fibs_state = .MOTD) :
    st.fibs_state = .MOTD := by
  have hle := sessionRun_phase_le st bs
  rw [h] at hle
  cases hf : st.fibs_state
  · rfl
  · rw [hf] at hle; simp [phaseIdx] at hle
  · rw [hf] at hle; simp [phaseIdx] at hle

/-- C8.  For every session state and every byte, a step either keeps the
phase or advances it one step forward through `MOTD` → `WaitLogin` →
`WaitPassword`; consequently for every byte sequence the phase index never
decreases over a run — transitions are monotonic and no phase is ever
revisited (exactly one phase is active at a time by construction of the
`FibsState` enum). -/
theorem session_phase_monotone :
    (∀ (st : SessionSt) (b : Nat),
      (sessionStep st b).fibs_state = st.fibs_state ∨
      (st.fibs_state = .MOTD ∧ (sessionStep st b).fibs_state = .WaitLogin) ∨
      (st.fibs_state = .WaitLogin ∧ (sessionStep st b).fibs_state = .WaitPassword)) ∧
    (∀ (st : SessionSt) (bs : List Nat),
      phaseIdx st.fibs_state ≤ phaseIdx (List.foldl sessionStep st bs).fibs_state) :=
  ⟨sessionStep_phase_cases, sessionRun_phase_le⟩

/-- C2 (amended).  If the bytes arriving immediately after the transition
to `WaitLogin` (scanner state 10) begin with the literal `"password: "`,
the machine transitions to `WaitPassword` exactly once, emits the
"password: " display line, and ignores all further bytes (the loop
breaks); and no byte processed in phase `MOTD` — in particular banner text
containing the word "password" — can move the machine to `WaitPassword`. -/
theorem awaiting_login_password_amended :
    (∀ (st : SessionSt) (rest : List Nat), st.fibs_state = .WaitLogin → st.s = 10 →
      List.foldl sessionStep st (pwMarker ++ rest) =
        ⟨.WaitPassword, 20, [], st.updates ++ [.AppendLine pwLine]⟩) ∧
    (∀ (st : SessionSt) (b : Nat), st.fibs_state = .MOTD →
      (sessionStep st b).fibs_state ≠ .WaitPassword) := by
  constructor
  · intro st rest hf hs
    obtain ⟨f, s, buf, us⟩ := st
    dsimp at hf hs
    subst hf
    subst hs
    rw [show (pwMarker ++ rest : List Nat)
          = 112 :: 97 :: 115 :: 115 :: 119 :: 111 :: 114 :: 100 :: 58 :: 32 :: rest
        from rfl]
    rw [List.foldl_cons, waitLogin_step 10 112 (by decide) buf us,
      show scanStep 10 112 = 11 from by decide]
    rw [List.foldl_cons, waitLogin_step 11 97 (by decide) buf us,
      show scanStep 11 97 = 12 from by decide]
    rw [List.foldl_cons, waitLogin_step 12 115 (by decide) buf us,
      show scanStep 12 115 = 13 from by decide]
    rw [List.foldl_cons, waitLogin_step 13 115 (by decide) buf us,
      show scanStep 13 115 = 14 from by decide]
    rw [List.foldl_cons, waitLogin_step 14 119 (by decide) buf us,
      show scanStep 14 119 = 15 from by decide]
    rw [List.foldl_cons, waitLogin_step 15 111 (by decide) buf us,
      show scanStep 15 111 = 16 from by decide]
    rw [List.foldl_cons, waitLogin_step 16 114 (by decide) buf us,
      show scanStep 16 114 = 17 from by decide]
    rw [List.foldl_cons, waitLogin_step 17 100 (by decide) buf us,
      show scanStep 17 100 = 18 from by decide]
    rw [List.foldl_cons, waitLogin_step 18 58 (by decide) buf us,
      show scanStep 18 58 = 19 from by decide]
    rw [List.foldl_cons, waitLogin_step_match 19 32 (by decide) buf us]
    exact sessionRun_waitPassword rfl rest
  · intro st b hf
    rcases sessionStep_phase_cases st b with h | ⟨_, h2⟩ | ⟨h1, _⟩
    · rw [h, hf]; intro hc; cases hc
    · rw [h2]; intro hc; cases hc
    · rw [hf] at h1; cases h1

/-- C2 witness: the amended statement instantiated in a concrete
`WaitLogin` state, with one trailing byte past the marker. -/
theorem awaiting_login_password_amended_witness :
    List.foldl sessionStep ⟨.WaitLogin, 10, [], []⟩ (pwMarker ++ [50]) =
      ⟨.WaitPassword, 20, [], [.AppendLine pwLine]⟩ ∧
    (sessionStep ⟨.MOTD, 2, [], []⟩ 112).fibs_state ≠ .WaitPassword :=
  ⟨by simpa using
      awaiting_login_password_amended.1 ⟨.WaitLogin, 10, [], []⟩ [50] rfl rfl,
    awaiting_login_password_amended.2 ⟨.MOTD, 2, [], []⟩ 112 rfl⟩

/-- C2 counterexample.  Starting from the initial state, the stream
`"\r\nx\nlogin: x password: "` reaches `WaitLogin`, after which the
remaining bytes `"x password: "` contain the literal `"password: "` — yet
the machine stays in `WaitLogin` and never emits the password line: the
single intervening `'x'` drops the scanner to the banner-content state 2,
from which the password chain (states 11-20) is unreachable. -/
theorem awaiting_login_password_counterexample :
    (List.foldl sessionStep sessionInit
        (strBytes "\r\nx\nlogin: x password: ")).fibs_state = .WaitLogin ∧
    (List.foldl sessionStep sessionInit
        (strBytes "\r\nx\nlogin: x password: ")).updates
      = [.MOTD (strBytes "x\nlogin: ")] := by
  decide

/-- C3.  The scanner's single-step transition: state 0 is the initial
scanner state; when `(s, b)` is mapped the table's mapped next state is
returned; an unmapped byte in a state that has a table entry goes to that
state's configured per-state default; a state with no table entry at all
goes to 0.  A match is signalled exactly when the designated target state
is reached: state 10 flips `MOTD` to `WaitLogin`, state 20 flips
`WaitLogin` to `WaitPassword`. -/
theorem scanner_step_semantics :
    sessionInit.s = 0 ∧
    (∀ (s b d : Nat) (m : List (Nat × Nat)), delta.lookup s = some (d, m) →
      (∀ t, m.lookup b = some t → scanStep s b = t) ∧
      (m.lookup b = none → scanStep s b = d)) ∧
    (∀ s b : Nat, delta.lookup s = none → scanStep s b = 0) ∧
    (∀ (st : SessionSt) (b : Nat), st.fibs_state = .MOTD →
      ((sessionStep st b).fibs_state = .WaitLogin ↔ scanStep st.s b = 10)) ∧
    (∀ (st : SessionSt) (b : Nat), st.fibs_state = .WaitLogin →
      ((sessionStep st b).fibs_state = .WaitPassword ↔ scanStep st.s b = 20)) := by
  refine ⟨rfl, ?_, ?_, ?_, ?_⟩
  · intro s b d m hl
    constructor
    · intro t ht
      simp [scanStep, hl, ht, Option.orElse]
    · intro ht
      simp [scanStep, hl, ht, Option.orElse]
  · intro s b h
    simp [scanStep, h]
  · intro st b hf
    obtain ⟨f, s, buf, us⟩ := st
    dsimp at hf
    subst hf
    by_cases h : scanStep s b = 10 <;> simp [sessionStep, h]
  · intro st b hf
    obtain ⟨f, s, buf, us⟩ := st
    dsimp at hf
    subst hf
    by_cases h : scanStep s b = 20 <;> simp [sessionStep, h]

/-- C3 witness: concrete instances of each clause — mapped byte
(state 3, `'l'`), per-state default (state 3, byte 99), absent state
(state 20), and the two match signals. -/
theorem scanner_step_semantics_witness :
    scanStep 3 108 = 4 ∧ scanStep 3 99 = 2 ∧ scanStep 20 112 = 0 ∧
    (sessionStep ⟨.MOTD, 9, [], []⟩ 32).fibs_state = .WaitLogin ∧
    (sessionStep ⟨.WaitLogin, 19, [], []⟩ 32).fibs_state = .WaitPassword :=
  ⟨(scanner_step_semantics.2.1 3 108 2 [(108, 4)] (by decide)).1 4 (by decide),
   (scanner_step_semantics.2.1 3 99 2 [(108, 4)] (by decide)).2 (by decide),
   scanner_step_semantics.2.2.1 20 112 (by decide),
   (scanner_step_semantics.2.2.2.1 ⟨.MOTD, 9, [], []⟩ 32 rfl).mpr (by decide),
   (scanner_step_semantics.2.2.2.2 ⟨.WaitLogin, 19, [], []⟩ 32 rfl).mpr (by decide)⟩

/-- Default server hostname (main.rs line 23). -/
def DEFAULT_FIBS_SERVER : String := "fibs.com"

/-- Default server port (main.rs line 24). -/
def DEFAULT_FIBS_PORT : Nat := 4321

/-- The hostname configuration lookup of main.rs lines 294-297, over the
process environment as a list of (name, value) pairs.  Note: the source's
`find` predicate destructures `|(_envar, val)|` and compares `val` — the
variable's VALUE, not its name — with `"FIBS_HOSTNAME"`, and then returns
that same value. -/
def fibs_hostname (env : List (String × String)) : String :=
  ((env.find? fun p => p.2 == "FIBS_HOSTNAME").map fun p => p.2).getD
    DEFAULT_FIBS_SERVER

/-- The value of a list of decimal digit characters. -/
def digitsToNat (cs : List Char) : Nat :=
  cs.foldl (fun n c => 10 * n + (c.toNat - 48)) 0

/-- `str::parse::<u16>`: a non-empty decimal digit string whose value fits
in 16 bits (Rust also accepts a leading `'+'`, which never occurs in the
inputs considered here). -/
def parseU16 (s : String) : Option Nat :=
  if s.data ≠ [] ∧ (∀ c ∈ s.data, c.isDigit) ∧ digitsToNat s.data ≤ 65535 then
    some (digitsToNat s.data)
  else none

/-- The port configuration lookup of main.rs lines 298-301: again the
predicate compares the variable's VALUE with `"FIBS_PORT"`, and the found
value is what gets parsed. -/
def fibs_port (env : List (String × String)) : Nat :=
  ((env.find? fun p => p.2 == "FIBS_PORT").bind fun p => parseU16 p.2).getD
    DEFAULT_FIBS_PORT

/-- C4 (code bug).  Setting `FIBS_HOSTNAME=example.org` does not override
the hostname and setting `FIBS_PORT=9999` does not override the port: the
lookups compare each variable's value, not its name, against the literals.
In fact the port is 4321 for every environment (the only value that can be
found is the string `"FIBS_PORT"`, which fails to parse), and the hostname
can only ever be `"fibs.com"` or the literal string `"FIBS_HOSTNAME"`. -/
theorem env_override_broken :
    fibs_hostname [("FIBS_HOSTNAME", "example.org")] = "fibs.com" ∧
    fibs_port [("FIBS_PORT", "9999")] = 4321 ∧
    fibs_hostname [("SHELL", "FIBS_HOSTNAME")] = "FIBS_HOSTNAME" ∧
    (∀ env, fibs_port env = 4321) ∧
    (∀ env, fibs_hostname env = "fibs.com" ∨
      fibs_hostname env = "FIBS_HOSTNAME") := by
  refine ⟨by decide, by decide, by decide, ?_, ?_⟩
  · intro env
    cases h : env.find? fun p => p.2 == "FIBS_PORT" with
    | none => simp [fibs_port, h, DEFAULT_FIBS_PORT]
    | some p =>
      have hv : p.2 = "FIBS_PORT" := by simpa using List.find?_some h
      simp [fibs_port, h, hv, show parseU16 "FIBS_PORT" = none from by decide,
        DEFAULT_FIBS_PORT]
  · intro env
    cases h : env.find? fun p => p.2 == "FIBS_HOSTNAME" with
    | none => exact Or.inl (by simp [fibs_hostname, h, DEFAULT_FIBS_SERVER])
    | some p =>
      have hv : p.2 = "FIBS_HOSTNAME" := by simpa using List.find?_some h
      exact Or.inr (by simp [fibs_hostname, h, hv])

/-- One `tcp.read` outcome for the network-reader loop: `chunk bs` models
`Ok(bs.len())` delivering bytes `bs` (so `chunk []` is end-of-stream,
`Ok(0)`), `ioErr` models `Err(_)`. -/
inductive ReadResult where
  | chunk (bytes : List Nat)
  | ioErr
deriving DecidableEq

/-- Observable status of the reader loop once the read oracle is
exhausted. -/
inductive ReaderStatus where
  | running
  | failed
deriving DecidableEq

/-- The network-reader loop of `spawn_fibs_thread` (main.rs lines
135-147), run against an oracle list of successive `read()` results.
Returns the bytes pushed onto the byte channel, in arrival order, and the
loop status: `failed` when a read error made `?` return
`Error::IOError`, `running` when the oracle ran out with the loop still
going — note the `loop` has no success exit at all.  (A failing channel
`send` would also exit through `?`; it is not modelled, as the claim
concerns the read side only.) -/
def fibsThread : List ReadResult → List Nat × ReaderStatus
  | [] => ([], .running)
  | .ioErr :: _ => ([], .failed)
  | .chunk bs :: rest =>
    (bs ++ (fibsThread rest).1, (fibsThread rest).2)

/-- C5 (code bug).  The reader propagates a read error as `IOError` and
forwards every received byte in arrival order, but it does NOT terminate
on end-of-stream: a read returning `Ok(0)` is treated like any other
successful read, so the loop immediately issues the next read — after any
number of end-of-stream reads it is still running, and it even keeps
consuming data past an end-of-stream read. -/
theorem reader_eof_never_terminates :
    (∀ n, fibsThread (List.replicate n (.chunk [])) = ([], .running)) ∧
    fibsThread [.chunk [], .chunk [1, 2]] = ([1, 2], .running) ∧
    (∀ rest, fibsThread (.ioErr :: rest) = ([], .failed)) ∧
    (∀ bs rest, fibsThread (.chunk bs :: rest)
      = (bs ++ (fibsThread rest).1, (fibsThread rest).2)) := by
  refine ⟨?_, by decide, fun rest => rfl, fun bs rest => rfl⟩
  intro n
  induction n with
  | zero => rfl
  | succ n ih => simp [List.replicate_succ, fibsThread, ih]

/-- One `tcp_rx.try_recv()` outcome for the coordinator loop. -/
inductive ChanEvent where
  | byte (b : Nat)
  | empty
  | disconnected
deriving DecidableEq

/-- How (or whether) the coordinator loop exited. -/
inductive LoopExit where
  | disconnect
  | phaseDone
  | pending
deriving DecidableEq

/-- The coordinator loop of `main` (main.rs lines 349-400) over an oracle
of `try_recv` results: `byte b` is `Ok(b)`, `empty` is `Err(Empty)` (the
loop `continue`s), `disconnected` is `Err(Disconnected)` (the loop
breaks).  A byte received in phase `WaitPassword` also breaks the loop.
Returns the final session state and the loop exit. -/
def coordLoop (st : SessionSt) : List ChanEvent → SessionSt × LoopExit
  | [] => (st, .pending)
  | .empty :: rest => coordLoop st rest
  | .disconnected :: _ => (st, .disconnect)
  | .byte b :: rest =>
    match st.fibs_state with
    | .WaitPassword => (st, .phaseDone)
    | _ => coordLoop (sessionStep st b) rest

/-- While the session stays in phase `MOTD`, the coordinator loop consumes
byte events by running the session machine. -/
theorem coordLoop_bytes {st : SessionSt} {bs : List Nat}
    (h : (List.foldl sessionStep st bs).fibs_state = .MOTD)
    (es : List ChanEvent) :
    coordLoop st (bs.map ChanEvent.byte ++ es)
      = coordLoop (List.foldl sessionStep st bs) es := by
  induction bs generalizing st with
  | nil => rfl
  | cons b bs ih =>
    have hst : st.fibs_state = .MOTD := phase_motd_of_run h
    rw [List.foldl_cons] at h
    rw [List.map_cons, List.cons_append]
    have : coordLoop st (ChanEvent.byte b :: (bs.map ChanEvent.byte ++ es))
        = coordLoop (sessionStep st b) (bs.map ChanEvent.byte ++ es) := by
      simp [coordLoop, hst]
    rw [this, ih h, List.foldl_cons]

/-- The result of one `tcp_rx.try_recv()` poll (main.rs line 350), as a
function of the channel's queued bytes and of which senders are still
alive.  Per the `std::sync::mpsc` contract, `Err(Disconnected)` is
returned only when the queue is empty AND every sender has been dropped;
otherwise an empty queue yields `Err(Empty)`.  This channel has two
senders: the clone passed to the reader thread
(`spawn_fibs_thread(reading_tcp, tcp_tx.clone())`, main.rs line 345),
dropped when that thread exits, and the original `tcp_tx` (main.rs line
308), which `main` retains in scope for the entire session loop. -/
def try_recv (pending : List Nat) (readerAlive mainSenderAlive : Bool) :
    ChanEvent :=
  match pending with
  | b :: _ => ChanEvent.byte b
  | [] =>
    if readerAlive || mainSenderAlive then ChanEvent.empty
    else ChanEvent.disconnected

/-- Polling an empty channel any number of times leaves the coordinator
loop running with its state unchanged. -/
theorem coordLoop_empty (st : SessionSt) (n : Nat) :
    coordLoop st (List.replicate n ChanEvent.empty) = (st, LoopExit.pending) := by
  induction n with
  | zero => rfl
  | succ n ih =>
    rw [List.replicate_succ]
    simpa [coordLoop] using ih

/-- C6 (code bug).  The shutdown chain the claim describes cannot happen.
The reader does fail with `IOError` on a read error; but `main` passes the
reader only a *clone* of the byte channel's sender and retains the
original `tcp_tx` for the whole session loop, and `try_recv` reports
`Disconnected` only once every sender is dropped — so while main's sender
is alive no poll can ever observe `Disconnected`.  Hence after the reader
dies mid-banner and the channel drains, every poll returns `Empty` and the
loop `continue`s: after any number of polls it is still pending, the
session loop never exits, and the terminal-restore / process-exit tail of
`main` (lines 402-423) is never reached. -/
theorem disconnect_mid_banner_hangs :
    fibsThread [ReadResult.ioErr] = ([], ReaderStatus.failed) ∧
    (∀ (pending : List Nat) (readerAlive : Bool),
      try_recv pending readerAlive true ≠ ChanEvent.disconnected) ∧
    (∀ (st : SessionSt) (n : Nat),
      coordLoop st (List.replicate n (try_recv [] false true))
        = (st, LoopExit.pending)) ∧
    (∀ (bs : List Nat) (n : Nat),
      (List.foldl sessionStep sessionInit bs).fibs_state = .MOTD →
      coordLoop sessionInit
          (bs.map ChanEvent.byte ++ List.replicate n (try_recv [] false true))
        = (List.foldl sessionStep sessionInit bs, LoopExit.pending)) := by
  have he : try_recv [] false true = ChanEvent.empty := rfl
  refine ⟨rfl, ?_, ?_, ?_⟩
  · intro pending readerAlive
    cases pending with
    | nil => cases readerAlive <;> simp [try_recv]
    | cons b rest => simp [try_recv]
  · intro st n
    rw [he]
    exact coordLoop_empty st n
  · intro bs n hmid
    rw [he, coordLoop_bytes hmid, coordLoop_empty]

/-- C6 witness: after three banner bytes the session is still mid-banner,
and five further polls of the drained channel (reader dead, main's sender
alive) leave the loop pending with the session state unchanged. -/
theorem disconnect_mid_banner_hangs_witness :
    (List.foldl sessionStep sessionInit [13, 10, 87]).fibs_state
        = FibsState.MOTD ∧
    coordLoop sessionInit
        ([13, 10, 87].map ChanEvent.byte
          ++ List.replicate 5 (try_recv [] false true))
      = (List.foldl sessionStep sessionInit [13, 10, 87], LoopExit.pending) :=
  ⟨by decide, disconnect_mid_banner_hangs.2.2.2 [13, 10, 87] 5 (by decide)⟩

/-- One key event from `stdin.keys()` in `spawn_input_thread`: a typed
character, some other (non-character) key, or an error from the event
iterator. -/
inductive Key where
  | char (c : Char)
  | other
  | errKey
deriving DecidableEq

/-- The input-relay thread's state: the line accumulator `ln`, the bytes
written to the socket's outbound half so far (as characters — the relayed
text is ASCII), and the display updates sent so far. -/
structure InputSt where
  ln : List Char
  sent : List Char
  updates : List Update
deriving DecidableEq

/-- Initial input-relay state (main.rs line 152; nothing written yet). -/
def inputInit : InputSt := ⟨[], [], []⟩

/-- One iteration of the input-relay loop (main.rs lines 154-179).  On a
newline the accumulator plus a carriage return is written to the socket
and the accumulator cleared; on any other character the character is
appended to the accumulator and an `AppendChars` and an `Input` display
update are sent, in that order; non-character keys are ignored; an event
error makes the thread return `Err` (the returned flag is the stop
flag). -/
def inputStep (st : InputSt) (k : Key) : InputSt × Bool :=
  match k with
  | .char c =>
    if c = '\n' then
      ({ ln := [], sent := st.sent ++ (st.ln ++ ['\r']), updates := st.updates },
        false)
    else
      ({ ln := st.ln ++ [c], sent := st.sent,
         updates := st.updates ++ [.AppendChars [c], .Input [c]] }, false)
  | .other => (st, false)
  | .errKey => (st, true)

/-- The input-relay loop over a list of key events. -/
def inputRun (st : InputSt) : List Key → InputSt
  | [] => st
  | k :: ks =>
    match inputStep st k with
    | (st', true) => st'
    | (st', false) => inputRun st' ks

/-- C7.  Typing a line of printable characters followed by newline: every
character is appended to the accumulator and echoed with a pair of display
updates; on the newline the accumulated line plus a carriage return — and
no linefeed — is written to the socket and the accumulator is cleared;
non-character key events are ignored. -/
theorem input_relay (line : List Char) (hline : ∀ c ∈ line, c ≠ '\n')
    (st : InputSt) :
    inputRun st (line.map Key.char ++ [Key.char '\n']) =
      { ln := [],
        sent := st.sent ++ st.ln ++ line ++ ['\r'],
        updates := st.updates
          ++ line.flatMap fun c => [.AppendChars [c], .Input [c]] } ∧
    (∀ t : InputSt, inputStep t Key.other = (t, false)) := by
  refine ⟨?_, fun t => rfl⟩
  induction line generalizing st with
  | nil =>
    simp [inputRun, inputStep]
  | cons c cs ih =>
    have hc : c ≠ '\n' := hline c (List.mem_cons_self c cs)
    rw [List.map_cons, List.cons_append]
    have hstep : inputRun st (Key.char c :: (cs.map Key.char ++ [Key.char '\n']))
        = inputRun ⟨st.ln ++ [c], st.sent,
            st.updates ++ [.AppendChars [c], .Input [c]]⟩
            (cs.map Key.char ++ [Key.char '\n']) := by
      simp [inputRun, inputStep, hc]
    rw [hstep, ih (fun d hd => hline d (List.mem_cons_of_mem c hd))]
    simp [List.append_assoc]

/-- C7 witness: typing `"bob\n"` sends exactly the bytes `"bob\r"` to the
socket, clears the accumulator, and echoes each character twice. -/
theorem input_relay_witness :
    inputRun inputInit (['b', 'o', 'b'].map Key.char ++ [Key.char '\n'])
      = { ln := [], sent := ['b', 'o', 'b', '\r'],
          updates := [.AppendChars ['b'], .Input ['b'], .AppendChars ['o'],
            .Input ['o'], .AppendChars ['b'], .Input ['b']] } ∧
    inputStep inputInit Key.other = (inputInit, false) := by
  constructor
  · have h := (input_relay ['b', 'o', 'b'] (by decide) inputInit).1
    simpa using h
  · exact (input_relay [] (by decide) inputInit).2 inputInit

/-- The TUI thread's state (main.rs lines 232-239): the scrollable content
buffer `fibs_buffer`, the visible window, the input-panel cursor column,
and the characters written into the input panel so far (in write order —
each `Input` event writes at the cursor and advances it by the text
length). -/
structure TuiSt where
  fibs_buffer : List (List Char)
  visible_window : Nat × Nat
  input_col : Nat
  input_echo : List Char
deriving DecidableEq

/-- Initial TUI state (main.rs lines 235-239). -/
def tuiInit : TuiSt := ⟨[], (0, 22), 5, []⟩

/-- Split a byte list at each CRLF pair, mirroring `motd.split("\r\n")`. -/
def splitCRLF : List Nat → List (List Nat)
  | [] => [[]]
  | 13 :: 10 :: rest => [] :: splitCRLF rest
  | b :: rest =>
    match splitCRLF rest with
    | [] => [[b]]
    | l :: ls => (b :: l) :: ls

/-- Decoding of one received byte for display.  ASCII bytes decode to
themselves; others to the replacement character.  (This restricts
`String::from_utf8_lossy` to the single-byte case; no verified claim
depends on the multi-byte decoding of the `MOTD` arm.) -/
def decodeByte (b : Nat) : Char :=
  if b < 128 then Char.ofNat b else '�'

/-- `fibs_buffer.last_mut()` push: append to the last line when there is
one, else push the text as a first line (main.rs lines 254-257). -/
def appendToLast (buf : List (List Char)) (s : List Char) : List (List Char) :=
  if buf = [] then [s] else buf.dropLast ++ [buf.getLastD [] ++ s]

/-- One iteration of the TUI thread's update loop (main.rs lines
242-284). -/
def tuiApply (st : TuiSt) (u : Update) : TuiSt :=
  match u with
  | .MOTD bytes =>
    { st with fibs_buffer := (splitCRLF bytes).map (fun l => l.map decodeByte) }
  | .AppendChars s => { st with fibs_buffer := appendToLast st.fibs_buffer s }
  | .AppendLine s =>
    { st with
      fibs_buffer := st.fibs_buffer ++ [s]
      visible_window := (st.visible_window.1 + 1, st.visible_window.2 + 1) }
  | .Input s =>
    { st with
      input_echo := st.input_echo ++ s
      input_col := st.input_col + s.length }

theorem appendToLast_getLastD (l : List (List Char)) (s : List Char) :
    (appendToLast l s).getLastD [] = l.getLastD [] ++ s := by
  rcases List.eq_nil_or_concat l with rfl | ⟨L, x, rfl⟩
  · simp [appendToLast]
  · simp [appendToLast]

theorem appendToLast_dropLast (l : List (List Char)) (s : List Char) :
    (appendToLast l s).dropLast = l.dropLast := by
  rcases List.eq_nil_or_concat l with rfl | ⟨L, x, rfl⟩
  · simp [appendToLast]
  · simp [appendToLast]

/-- C9 (amended).  Append-characters events on the current line are
strictly ordered: applying `AppendChars a` then `AppendChars b` yields a
buffer whose last line is the old last line followed by `a ++ b` — never
`b ++ a`, with nothing lost or duplicated — and all earlier lines are
untouched. -/
theorem display_append_order (st : TuiSt) (a b : List Char) :
    ((tuiApply (tuiApply st (.AppendChars a)) (.AppendChars b)).fibs_buffer.getLastD []
        = st.fibs_buffer.getLastD [] ++ a ++ b) ∧
    ((tuiApply (tuiApply st (.AppendChars a)) (.AppendChars b)).fibs_buffer.dropLast
        = st.fibs_buffer.dropLast) := by
  constructor
  · dsimp [tuiApply]
    rw [appendToLast_getLastD, appendToLast_getLastD]
  · dsimp [tuiApply]
    rw [appendToLast_dropLast, appendToLast_dropLast]

/-- C9 counterexample.  Appends to distinct lines do not commute:
starting from the buffer `["x"]`, appending characters `"a"` (which lands
on line 0) and appending the new line `"y"` (line 1) give different
buffers in the two orders — `["xa", "y"]` versus `["x", "ya"]` — because
`AppendChars` always targets the current last line. -/
theorem display_append_commute_counterexample :
    tuiApply (tuiApply ⟨[['x']], (0, 22), 5, []⟩ (.AppendChars ['a']))
        (.AppendLine ['y'])
      ≠ tuiApply (tuiApply ⟨[['x']], (0, 22), 5, []⟩ (.AppendLine ['y']))
        (.AppendChars ['a']) := by
  decide

/-- C10.  A typed printable non-newline character produces exactly two
display updates, `AppendChars` then `Input`; processing the pair appends
the character both to the last line of the content buffer and to the
input-panel echo. -/
theorem typed_char_dual_panels (st : InputSt) (tst : TuiSt) (c : Char)
    (hc : c ≠ '\n') :
    (inputStep st (.char c)).1.updates
        = st.updates ++ [.AppendChars [c], .Input [c]] ∧
    ((tuiApply (tuiApply tst (.AppendChars [c])) (.Input [c])).fibs_buffer.getLastD []
        = tst.fibs_buffer.getLastD [] ++ [c]) ∧
    ((tuiApply (tuiApply tst (.AppendChars [c])) (.Input [c])).input_echo
        = tst.input_echo ++ [c]) := by
  refine ⟨by simp [inputStep, hc], ?_, ?_⟩
  · dsimp [tuiApply]
    rw [appendToLast_getLastD]
  · dsimp [tuiApply]

/-- C10 witness: the character `'b'` typed from the initial states. -/
theorem typed_char_dual_panels_witness :
    (inputStep inputInit (Key.char 'b')).1.updates
        = inputInit.updates ++ [.AppendChars ['b'], .Input ['b']] ∧
    ((tuiApply (tuiApply tuiInit (.AppendChars ['b'])) (.Input ['b'])).fibs_buffer.getLastD []
        = tuiInit.fibs_buffer.getLastD [] ++ ['b']) ∧
    ((tuiApply (tuiApply tuiInit (.AppendChars ['b'])) (.Input ['b'])).input_echo
        = tuiInit.input_echo ++ ['b']) :=
  typed_char_dual_panels inputInit tuiInit 'b' (by decide)

end Fibsterm
